import Mathlib

/-!
Shallow embedding of the sniper order-execution engine (src/index.ts):
order lifecycle persistence, the worker pipeline, the pool availability
check, the DEX router, the status broadcaster, the WebSocket ingress
handler and the queue/retry configuration, together with theorems
settling the specification claims about them.
-/

namespace Sniper

/-- The eight order lifecycle status values persisted in the orders table. -/
inductive Status
  | pending
  | monitoring
  | triggered
  | routing
  | building
  | submitted
  | confirmed
  | failed
  deriving DecidableEq, Repr

/-- A swap quote returned by a venue adapter: `outputAmount` is the integer
output in smallest units (the code compares `outputAmount.toNumber()`),
`tradeFee` the fee, `priceImpact` the impact in hundredths of a percent. -/
structure Quote where
  outputAmount : Nat
  tradeFee : Nat
  priceImpact : Int
  deriving DecidableEq, Repr

/-- Decimal digit groups of three, taken from a reversed digit list. -/
def groupsOfThreeRev : List Char → List (List Char)
  | [] => []
  | [a] => [[a]]
  | [a, b] => [[a, b]]
  | a :: b :: c :: rest => [a, b, c] :: groupsOfThreeRev rest

/-- JS `Number.prototype.toLocaleString()` on a nonnegative integer in the
en-US default locale: the decimal digits with a comma every three digits. -/
def toLocaleString (n : Nat) : String :=
  let ds := (toString n).toList
  let gs := ((groupsOfThreeRev ds.reverse).reverse).map List.reverse
  String.intercalate "," (gs.map fun g => String.mk g)

/-- The routing decision object returned by `getBestRoute`. -/
structure Route where
  dex : String
  poolId : String
  raydiumQuote : Option Quote
  meteoraQuote : Option Quote
  selectedQuote : Option Quote
  reason : String
  deriving DecidableEq, Repr

/-- The quote a venue contributes to routing: present exactly when the venue
has a pool id and its quote request succeeds; a quote failure is caught and
leaves the venue without a quote (the `try/catch` around `getXSwapQuote`). -/
def venueQuote (poolId : Option String) (getQuote : String → Except String Quote) :
    Option Quote :=
  match poolId with
  | some pid => (getQuote pid).toOption
  | none => none

/-- bn.js `BN.prototype.toNumber()` on a nonnegative value: the value when
it fits in 53 bits, otherwise the assertion failure the library throws. -/
def toNumber (n : Nat) : Except String Nat :=
  if n < 2 ^ 53 then .ok n
  else .error "Number can only safely store up to 53 bits"

/-- `getBestRoute` from src/index.ts. The two venue quote requests are
modelled as functions from pool id to a quote or an error message; the
non-null assertions `raydiumPoolId!` / `meteoraPoolId!` become `getD ""`
(reachable only when the pool id is present). In the two-quote branch the
source converts each `outputAmount` with `BN.toNumber()` — Raydium first —
outside any try/catch, so an output of 2^53 or more throws out of the
routing step instead of being compared. -/
def getBestRoute (raydiumPoolId meteoraPoolId : Option String)
    (getRaydiumSwapQuote getMeteoraSwapQuote : String → Except String Quote) :
    Except String Route :=
  let raydiumQuote := venueQuote raydiumPoolId getRaydiumSwapQuote
  let meteoraQuote := venueQuote meteoraPoolId getMeteoraSwapQuote
  match raydiumQuote, meteoraQuote with
  | none, none => .error "No quotes available from any DEX"
  | some rq, none =>
      .ok ⟨"raydium", raydiumPoolId.getD "", some rq, none, some rq,
        "Only Raydium available"⟩
  | none, some mq =>
      .ok ⟨"meteora", meteoraPoolId.getD "", none, some mq, some mq,
        "Only Meteora available"⟩
  | some rq, some mq =>
      match toNumber rq.outputAmount with
      | .error e => .error e
      | .ok raydiumOutput =>
        match toNumber mq.outputAmount with
        | .error e => .error e
        | .ok meteoraOutput =>
          if raydiumOutput > meteoraOutput then
            .ok ⟨"raydium", raydiumPoolId.getD "", some rq, some mq, some rq,
              "Better output: " ++ toLocaleString raydiumOutput ++ " vs " ++
                toLocaleString meteoraOutput⟩
          else
            .ok ⟨"meteora", meteoraPoolId.getD "", some rq, some mq, some mq,
              "Better output: " ++ toLocaleString meteoraOutput ++ " vs " ++
                toLocaleString raydiumOutput⟩

/-- The result of a venue's pool-existence capability (`checkRaydiumPoolExists`
or `checkMeteoraPoolExists`); `poolExists` embeds the source field `exists`. -/
structure PoolCheckResult where
  poolExists : Bool
  poolId : Option String
  deriving DecidableEq, Repr

/-- One entry of the test-pools.json file consulted by `checkForPool`. -/
structure FileEntry where
  key : String
  tokenMint : String
  poolId : String
  deriving DecidableEq, Repr

/-- The scan `checkForPool` performs over the test-pools.json entries for one
venue: the pool id of the last entry whose key starts with the venue's pool
key and whose tokenMint equals the token address, if any. -/
def scanFilePools (venueKey tokenAddress : String) (entries : List FileEntry) :
    Option String :=
  entries.foldl
    (fun acc e =>
      if e.key.startsWith venueKey && e.tokenMint == tokenAddress then
        some e.poolId
      else acc)
    none

/-- The value returned by `checkForPool`. -/
structure PoolSearchResult where
  found : Bool
  raydiumPoolId : Option String
  meteoraPoolId : Option String
  deriving DecidableEq, Repr

/-- `checkForPool` from src/index.ts. `filePools` is the parsed content of
test-pools.json (`none` when reading or parsing the file throws). Each
venue's pool-existence capability is modelled as the sequence of results
successive calls would return; the code consults a venue at most once,
reading index 0, and only when the file scan produced nothing for it. -/
def checkForPool (tokenAddress : String) (filePools : Option (List FileEntry))
    (checkRaydiumPoolExists checkMeteoraPoolExists : Nat → PoolCheckResult) :
    PoolSearchResult :=
  let entries := filePools.getD []
  let rayFromFile := scanFilePools "raydium-pool" tokenAddress entries
  let metFromFile := scanFilePools "meteora-pool" tokenAddress entries
  let raydiumPoolId :=
    match rayFromFile with
    | some pid => some pid
    | none =>
        let info := checkRaydiumPoolExists 0
        if info.poolExists then info.poolId else none
  let meteoraPoolId :=
    match metFromFile with
    | some pid => some pid
    | none =>
        let info := checkMeteoraPoolExists 0
        if info.poolExists then info.poolId else none
  ⟨raydiumPoolId.isSome || meteoraPoolId.isSome, raydiumPoolId, meteoraPoolId⟩

/-- A venue pool-check sequence reporting no pool on the first call and a
pool on every later call. -/
def lateRaydiumCheck : Nat → PoolCheckResult :=
  fun k => if k = 0 then ⟨false, none⟩ else ⟨true, some "ray-pool-late"⟩

/-- A venue pool-check sequence that never reports a pool. -/
def noPoolCheck : Nat → PoolCheckResult := fun _ => ⟨false, none⟩

/-- A persisted row of the orders table (the columns the claims are about;
token, amounts and timestamps are carried through unchanged). -/
structure OrderRow where
  status : Status
  tokenAddress : String
  amountIn : String
  slippage : String
  selectedDex : Option String
  txHash : Option String
  errorMessage : Option String
  deriving DecidableEq, Repr

/-- The sparse `data` argument of `updateOrderStatus`. -/
structure UpdateData where
  selectedDex : Option String
  txHash : Option String
  errorMessage : Option String
  deriving DecidableEq, Repr

/-- An absent `data` field. -/
def noData : UpdateData := ⟨none, none, none⟩

/-- A `data` argument carrying only `selectedDex`. -/
def dexData (d : String) : UpdateData := ⟨some d, none, none⟩

/-- A `data` argument carrying only `txHash`. -/
def txData (t : String) : UpdateData := ⟨none, some t, none⟩

/-- A `data` argument carrying only `errorMessage`. -/
def errData (e : String) : UpdateData := ⟨none, none, some e⟩

/-- JS truthiness of an optional string field: present and non-empty
(`if (data.txHash)` is false for `undefined` and for `""`). -/
def truthy : Option String → Bool
  | none => false
  | some s => !(s == "")

/-- `updateOrderStatus` from src/index.ts as a row transformer: always sets
the status, and sets each of selected_dex / tx_hash / error_message only
when the corresponding data field is truthy, leaving it unchanged otherwise
(updates are sparse; fields are never cleared). -/
def updateOrderStatus (row : OrderRow) (status : Status) (data : UpdateData) :
    OrderRow :=
  let row1 := { row with status := status }
  let row2 :=
    if truthy data.selectedDex then { row1 with selectedDex := data.selectedDex }
    else row1
  let row3 :=
    if truthy data.txHash then { row2 with txHash := data.txHash } else row2
  if truthy data.errorMessage then { row3 with errorMessage := data.errorMessage }
  else row3

/-- `createOrder` from src/index.ts: the freshly inserted row, status
pending, all optional columns NULL. -/
def createOrder (tokenAddress amountIn slippage : String) : OrderRow :=
  ⟨Status.pending, tokenAddress, amountIn, slippage, none, none, none⟩

/-- Everything one run of the worker processor does that the claims are
about: the ordered list of `updateOrderStatus` calls, the ordered list of
broadcast events (status plus message), and the job outcome (the value
returned to the queue, or the re-raised error). -/
structure WorkerRun where
  ups : List (Status × UpdateData)
  evs : List (Status × String)
  outcome : Except String String
  deriving Repr

/-- The worker processor from src/index.ts as a function of its effectful
steps: `poolCheck` is the result of `checkForPool` (or the error it threw),
`route` the result of `getBestRoute` on the discovered pools, `execTx` the
result of `executeTransaction` on the chosen route. Every thrown step error
lands in the single catch at the job boundary, which appends a failed
persist and a failed broadcast carrying the message and re-raises it. -/
def worker (tokenAddress : String)
    (poolCheck : Except String PoolSearchResult)
    (route : PoolSearchResult → Except String Route)
    (execTx : Route → Except String String) : WorkerRun :=
  let ups0 : List (Status × UpdateData) :=
    [(Status.pending, noData), (Status.monitoring, noData)]
  let evs0 : List (Status × String) :=
    [(Status.pending, "Order received and queued"),
     (Status.monitoring,
       "Monitoring for pool creation: " ++ tokenAddress.take 8 ++ "...")]
  match poolCheck with
  | .error e => ⟨ups0 ++ [(Status.failed, errData e)],
      evs0 ++ [(Status.failed, e)], .error e⟩
  | .ok pc =>
    if pc.found = false then
      let e := "Pool not found on any DEX"
      ⟨ups0 ++ [(Status.failed, errData e)], evs0 ++ [(Status.failed, e)],
        .error e⟩
    else
      let ups1 := ups0 ++ [(Status.triggered, noData), (Status.routing, noData)]
      let evs1 := evs0 ++
        [(Status.triggered, "Pool detected! Starting execution..."),
         (Status.routing, "Comparing Raydium and Meteora quotes...")]
      match route pc with
      | .error e => ⟨ups1 ++ [(Status.failed, errData e)],
          evs1 ++ [(Status.failed, e)], .error e⟩
      | .ok r =>
        let ups2 := ups1 ++
          [(Status.building, dexData r.dex), (Status.submitted, noData)]
        let evs2 := evs1 ++
          [(Status.routing, "Best route selected: " ++ r.dex),
           (Status.building, "Building transaction on " ++ r.dex ++ "..."),
           (Status.submitted, "Transaction submitted to blockchain...")]
        match execTx r with
        | .error e => ⟨ups2 ++ [(Status.failed, errData e)],
            evs2 ++ [(Status.failed, e)], .error e⟩
        | .ok tx => ⟨ups2 ++ [(Status.confirmed, txData tx)],
            evs2 ++ [(Status.confirmed, "Transaction confirmed!")], .ok tx⟩

/-- The successive persisted rows produced by applying a list of
`updateOrderStatus` calls to a starting row. -/
def applyUpdates (row : OrderRow) : List (Status × UpdateData) → List OrderRow
  | [] => []
  | (st, d) :: rest =>
      let row1 := updateOrderStatus row st d
      row1 :: applyUpdates row1 rest

/-- A concrete route value used by counterexample runs. -/
def sampleRoute : Route :=
  ⟨"raydium", "rp", none, none, none, "Only Raydium available"⟩

/-- Position of a status along the forward lifecycle graph. -/
def rank : Status → Nat
  | .pending => 0
  | .monitoring => 1
  | .triggered => 2
  | .routing => 3
  | .building => 4
  | .submitted => 5
  | .confirmed => 6
  | .failed => 7

/-- A persisted transition the lifecycle claim allows: forward (or equal)
along the graph between non-failed statuses, or a jump to failed from any
non-terminal status. -/
def allowedStep (a b : Status) : Bool :=
  if b == Status.failed then !(a == Status.confirmed) && !(a == Status.failed)
  else !(a == Status.failed) && Nat.ble (rank a) (rank b)

/-- Every adjacent pair of a status sequence is an allowed transition. -/
def chainAllowed : List Status → Bool
  | [] => true
  | [_] => true
  | a :: b :: rest => allowedStep a b && chainAllowed (b :: rest)

/-- A WebSocket channel: an identity and its readyState (1 = OPEN). -/
structure Chan where
  cid : Nat
  readyState : Nat
  deriving DecidableEq, Repr

/-- The `wsConnections` map, orderId → set of channels (a JS `Map` whose
keys are unique, holding JS `Set`s kept as lists in insertion order). -/
abbrev WsMap : Type := List (String × List Chan)

/-- `Map.get`: the channel set of an order id, if present. -/
def mapGet : WsMap → String → Option (List Chan)
  | [], _ => none
  | (k, v) :: rest, oid => if k == oid then some v else mapGet rest oid

/-- `Map.delete`: remove an order id's entry. -/
def mapDelete : WsMap → String → WsMap
  | [], _ => []
  | (k, v) :: rest, oid => if k == oid then rest else (k, v) :: mapDelete rest oid

/-- `Map.set`: replace (or append) an order id's entry. -/
def mapSet : WsMap → String → List Chan → WsMap
  | [], oid, conns => [(oid, conns)]
  | (k, v) :: rest, oid, conns =>
      if k == oid then (oid, conns) :: rest else (k, v) :: mapSet rest oid conns

/-- `broadcastToOrder` from src/index.ts: looks up the order's channel set;
if absent, does nothing; otherwise serializes the message once and sends
the resulting string to every channel whose readyState is OPEN, skipping
the rest. Returns the performed sends as (channel id, payload) pairs. -/
def broadcastToOrder {α : Type} (stringify : α → String) (m : WsMap)
    (orderId : String) (message : α) : List (Nat × String) :=
  match mapGet m orderId with
  | none => []
  | some conns =>
      let messageStr := stringify message
      (conns.filter (fun ws => ws.readyState == 1)).map
        (fun ws => (ws.cid, messageStr))

/-- The socket close handler from src/index.ts: when the connection had
placed an order, remove the socket from that order's channel set and drop
the whole mapping entry once the set is empty; otherwise do nothing. -/
def socketClose (m : WsMap) (orderId : Option String) (sock : Chan) : WsMap :=
  match orderId with
  | none => m
  | some oid =>
      match mapGet m oid with
      | none => m
      | some conns =>
          let conns1 := conns.filter (fun ws => !(ws == sock))
          if conns1.length == 0 then mapDelete m oid else mapSet m oid conns1

/-- The fields of a client order request after JSON parsing; each field is
absent or a string whose JS truthiness the validation tests. -/
structure OrderReq where
  tokenAddress : Option String
  amountIn : Option String
  slippage : Option String
  deriving DecidableEq, Repr

/-- One WebSocket message as the handler sees it: either JSON.parse threw,
or it produced a value (`none` for a falsy parse result such as null). -/
inductive WsMessage
  | badJson (err : String)
  | json (order : Option OrderReq)
  deriving DecidableEq, Repr

/-- An observable effect of the connection message handler. -/
inductive Effect
  | sendError (error message : String)
  | sendAck (orderId : String)
  | register (orderId : String)
  | closeSocket
  | createOrderRow (orderId : String)
  | enqueueJob (orderId : String)
  deriving DecidableEq, Repr

/-- Per-connection handler state: the generated order id, if any, and the
`orderProcessed` flag. -/
structure ConnState where
  orderId : Option String
  orderProcessed : Bool
  deriving DecidableEq, Repr

/-- The `socket.on('message')` handler from src/index.ts: a second message
is ignored outright (`orderProcessed` is set before parsing); a parse error
or a missing/falsy required field answers an error and closes the socket;
otherwise the freshly generated UUID (`freshId`) is registered, acknowledged,
the order row created and the job enqueued, in the source's order. -/
def onMessage (st : ConnState) (freshId : String) (msg : WsMessage) :
    ConnState × List Effect :=
  if st.orderProcessed then (st, [])
  else
    let st1 : ConnState := ⟨st.orderId, true⟩
    match msg with
    | .badJson err => (st1, [.sendError "Invalid JSON" err, .closeSocket])
    | .json none =>
        (st1, [.sendError "Invalid order"
          "tokenAddress, amountIn, and slippage are required", .closeSocket])
    | .json (some order) =>
        if !(truthy order.tokenAddress) || !(truthy order.amountIn) ||
            !(truthy order.slippage) then
          (st1, [.sendError "Invalid order"
            "tokenAddress, amountIn, and slippage are required", .closeSocket])
        else
          (⟨some freshId, true⟩,
           [.register freshId, .sendAck freshId, .createOrderRow freshId,
            .enqueueJob freshId])

/-- A whole connection: fold the message handler over the received messages
(each paired with the UUID the generator would hand out), collecting
effects. -/
def runConn : ConnState → List (String × WsMessage) → ConnState × List Effect
  | st, [] => (st, [])
  | st, (fid, msg) :: rest =>
      let out := onMessage st fid msg
      let out2 := runConn out.1 rest
      (out2.1, out.2 ++ out2.2)

/-- Does the effect create an order row? -/
def isCreateOrderRow : Effect → Bool
  | .createOrderRow _ => true
  | _ => false

/-- Does the effect enqueue a job? -/
def isEnqueueJob : Effect → Bool
  | .enqueueJob _ => true
  | _ => false

/-- Configured queue retry budget: the environment override parsed as an
integer, defaulting to 3 (`parseInt(process.env.MAX_RETRY_ATTEMPTS || '3')`). -/
def maxRetryAttempts (envMaxRetryAttempts : Option Nat) : Nat :=
  envMaxRetryAttempts.getD 3

/-- The worker's custom `backoffStrategy`: `Math.pow(2, attemptsMade) * 1000`
milliseconds, i.e. 2^attempt seconds. -/
def backoffStrategy (attemptsMade : Nat) : Nat :=
  Nat.pow 2 attemptsMade * 1000

/-- A job's `backoff` option as BullMQ reads it: absent, the built-in fixed
or exponential kinds with a base delay, or the custom kind that defers to
the worker's registered strategy. -/
inductive BackoffOpt
  | noBackoff
  | fixed (delayMs : Nat)
  | exponential (delayMs : Nat)
  | custom
  deriving DecidableEq, Repr

/-- The options `orderQueue.add` passes with each sniper job; the source
(src/index.ts, the `orderQueue.add` call) sets attempts, removeOnComplete
and removeOnFail and no `backoff` field. -/
structure JobOptions where
  attempts : Nat
  removeOnComplete : Bool
  removeOnFail : Bool
  backoff : BackoffOpt
  deriving DecidableEq, Repr

/-- The job options built at enqueue time in src/index.ts. -/
def orderJobOptions (envMaxRetryAttempts : Option Nat) : JobOptions :=
  ⟨maxRetryAttempts envMaxRetryAttempts, false, false, .noBackoff⟩

/-- BullMQ's delay before re-running a failed attempt, as a function of the
job's backoff option: no option means an immediate retry (zero delay); only
`backoff.type = 'custom'` invokes the worker's registered backoffStrategy. -/
def retryDelay (opt : BackoffOpt) (strategy : Nat → Nat) (attemptsMade : Nat) :
    Nat :=
  match opt with
  | .noBackoff => 0
  | .fixed d => d
  | .exponential d => d * 2 ^ (attemptsMade - 1)
  | .custom => strategy attemptsMade

/-- Counterexample to claim C2: `checkForPool` does not poll repeatedly.
A venue that reports no pool on its first check but a pool on its second —
attempt 1, well inside the spec's illustrative 15-attempt budget — still
yields found = false, because each venue is consulted exactly once. -/
theorem checkForPool_no_polling_counterexample :
    (1 < 15 ∧ (lateRaydiumCheck 1).poolExists = true ∧
      (lateRaydiumCheck 1).poolId.isSome = true) ∧
    (checkForPool "tok" none lateRaydiumCheck noPoolCheck).found = false := by
  decide

/-- Claim C2 amended: `checkForPool` makes a single pool-existence check per
venue rather than polling — its result depends only on the first element of
each venue's result sequence — and it returns found = true exactly when the
pools file or that single check reports a pool for at least one venue. -/
theorem checkForPool_single_attempt (tokenAddress : String)
    (filePools : Option (List FileEntry))
    (rayCheck metCheck : Nat → PoolCheckResult) :
    checkForPool tokenAddress filePools rayCheck metCheck =
      checkForPool tokenAddress filePools (fun _ => rayCheck 0) (fun _ => metCheck 0) ∧
    ((checkForPool tokenAddress filePools rayCheck metCheck).found = true ↔
      (scanFilePools "raydium-pool" tokenAddress (filePools.getD [])).isSome = true ∨
      ((rayCheck 0).poolExists = true ∧ (rayCheck 0).poolId.isSome = true) ∨
      (scanFilePools "meteora-pool" tokenAddress (filePools.getD [])).isSome = true ∨
      ((metCheck 0).poolExists = true ∧ (metCheck 0).poolId.isSome = true)) := by
  refine ⟨rfl, ?_⟩
  rcases hR : rayCheck 0 with ⟨rex, rid⟩
  rcases hM : metCheck 0 with ⟨mex, mid⟩
  cases hr : scanFilePools "raydium-pool" tokenAddress (filePools.getD []) <;>
    cases hm : scanFilePools "meteora-pool" tokenAddress (filePools.getD []) <;>
      simp only [checkForPool, hr, hm, hR, hM] <;>
      cases rex <;> cases mex <;> cases rid <;> cases mid <;>
        simp

theorem updateOrderStatus_status (row : OrderRow) (st : Status) (d : UpdateData) :
    (updateOrderStatus row st d).status = st := by
  simp only [updateOrderStatus]
  split <;> split <;> split <;> rfl

theorem updateOrderStatus_txHash (row : OrderRow) (st : Status) (d : UpdateData) :
    (updateOrderStatus row st d).txHash =
      if truthy d.txHash then d.txHash else row.txHash := by
  simp only [updateOrderStatus]
  split <;> split <;> split <;> simp_all

theorem updateOrderStatus_errorMessage (row : OrderRow) (st : Status)
    (d : UpdateData) :
    (updateOrderStatus row st d).errorMessage =
      if truthy d.errorMessage then d.errorMessage else row.errorMessage := by
  simp only [updateOrderStatus]
  split <;> split <;> split <;> simp_all

/-- Counterexample to claim C3: on a fully successful run the submitted-step
update carries no tx hash, so the sixth persisted row has status submitted
with tx_hash unset; tx_hash-set iff status ∈ {submitted, confirmed} is
violated at a reachable persisted state. -/
theorem txHash_iff_submitted_counterexample :
    ¬ (∀ row ∈ applyUpdates (createOrder "tok" "100000000" "0.01")
        (worker "tok" (.ok ⟨true, some "rp", some "mp"⟩)
          (fun _ => .ok sampleRoute) (fun _ => .ok "tx123")).ups,
        (row.txHash.isSome = true ↔
          (row.status = Status.submitted ∨ row.status = Status.confirmed))) := by
  intro h
  have hmem : (⟨Status.submitted, "tok", "100000000", "0.01", some "raydium",
      none, none⟩ : OrderRow) ∈
      applyUpdates (createOrder "tok" "100000000" "0.01")
        (worker "tok" (.ok ⟨true, some "rp", some "mp"⟩)
          (fun _ => .ok sampleRoute) (fun _ => .ok "tx123")).ups := by
    simp only [worker, applyUpdates, updateOrderStatus, truthy, noData, errData,
      dexData, txData, createOrder, sampleRoute, List.cons_append, List.nil_append,
      List.mem_cons, List.not_mem_nil, or_false]
    tauto
  have h5 := (h _ hmem).mpr (Or.inl rfl)
  simp at h5

/-- Claim C3 amended: over a single run of the worker on a freshly created
row, with non-empty step error messages and a non-empty tx hash, every
persisted row satisfies: tx_hash is set iff the status is confirmed (the
submitted update carries no hash), and error_message is set iff the status
is failed. (A retried run starts from the previous run's row, whose stale
error_message is never cleared, so the second equivalence is specific to a
fresh row.) -/
theorem order_row_fields_iff_status (tok amt sl : String)
    (poolCheck : Except String PoolSearchResult)
    (route : PoolSearchResult → Except String Route)
    (execTx : Route → Except String String)
    (hp : ∀ e, poolCheck = .error e → e ≠ "")
    (hrt : ∀ pc e, route pc = .error e → e ≠ "")
    (hex : ∀ r e, execTx r = .error e → e ≠ "")
    (htx : ∀ r t, execTx r = .ok t → t ≠ "") :
    ∀ row ∈ applyUpdates (createOrder tok amt sl)
        (worker tok poolCheck route execTx).ups,
      (row.txHash.isSome = true ↔ row.status = Status.confirmed) ∧
      (row.errorMessage.isSome = true ↔ row.status = Status.failed) := by
  intro row hrow
  rcases hpc : poolCheck with e | pc
  · have he : e ≠ "" := hp e hpc
    rw [hpc] at hrow
    simp only [worker, applyUpdates, List.cons_append, List.nil_append,
      List.mem_cons, List.not_mem_nil, or_false] at hrow
    rcases hrow with rfl | rfl | rfl <;>
      simp [updateOrderStatus_status, updateOrderStatus_txHash,
        updateOrderStatus_errorMessage, truthy, noData, errData, createOrder, he]
  · rw [hpc] at hrow
    simp only [worker] at hrow
    cases hf : pc.found with
    | false =>
      rw [hf, if_pos rfl] at hrow
      simp only [applyUpdates, List.cons_append, List.nil_append,
        List.mem_cons, List.not_mem_nil, or_false] at hrow
      rcases hrow with rfl | rfl | rfl <;>
        simp [updateOrderStatus_status, updateOrderStatus_txHash,
          updateOrderStatus_errorMessage, truthy, noData, errData, createOrder]
    | true =>
      rw [hf, if_neg (by simp)] at hrow
      rcases hr : route pc with e | r
      · have he : e ≠ "" := hrt pc e hr
        rw [hr] at hrow
        simp only [applyUpdates, List.cons_append, List.nil_append,
          List.mem_cons, List.not_mem_nil, or_false] at hrow
        rcases hrow with rfl | rfl | rfl | rfl | rfl <;>
          simp [updateOrderStatus_status, updateOrderStatus_txHash,
            updateOrderStatus_errorMessage, truthy, noData, errData,
            createOrder, he]
      · rw [hr] at hrow
        rcases hx : execTx r with e | tx
        · have he : e ≠ "" := hex r e hx
          simp only [hx] at hrow
          simp only [applyUpdates, List.cons_append, List.nil_append,
            List.mem_cons, List.not_mem_nil, or_false] at hrow
          rcases hrow with rfl | rfl | rfl | rfl | rfl | rfl | rfl <;>
            simp [updateOrderStatus_status, updateOrderStatus_txHash,
              updateOrderStatus_errorMessage, truthy, noData, errData, dexData,
              createOrder, he]
        · have ht : tx ≠ "" := htx r tx hx
          simp only [hx] at hrow
          simp only [applyUpdates, List.cons_append, List.nil_append,
            List.mem_cons, List.not_mem_nil, or_false] at hrow
          rcases hrow with rfl | rfl | rfl | rfl | rfl | rfl | rfl <;>
            simp [updateOrderStatus_status, updateOrderStatus_txHash,
              updateOrderStatus_errorMessage, truthy, noData, errData, dexData,
              txData, createOrder, ht]

/-- Witness for the amended C3: a concrete successful run and a concrete
failing run both satisfy the amended invariant on every persisted row. -/
theorem order_row_fields_iff_status_witness :
    (∀ row ∈ applyUpdates (createOrder "tok" "100000000" "0.01")
        (worker "tok" (.ok ⟨true, some "rp", some "mp"⟩)
          (fun _ => .ok sampleRoute) (fun _ => .ok "tx123")).ups,
      (row.txHash.isSome = true ↔ row.status = Status.confirmed) ∧
      (row.errorMessage.isSome = true ↔ row.status = Status.failed)) ∧
    (∀ row ∈ applyUpdates (createOrder "tok" "100000000" "0.01")
        (worker "tok" (.ok ⟨false, none, none⟩)
          (fun _ => .ok sampleRoute) (fun _ => .ok "tx123")).ups,
      (row.txHash.isSome = true ↔ row.status = Status.confirmed) ∧
      (row.errorMessage.isSome = true ↔ row.status = Status.failed)) := by
  constructor
  · exact order_row_fields_iff_status "tok" "100000000" "0.01"
      (.ok ⟨true, some "rp", some "mp"⟩) (fun _ => .ok sampleRoute)
      (fun _ => .ok "tx123")
      (fun e h => by simp at h) (fun pc e h => by simp at h)
      (fun r e h => by simp at h) (fun r t h => by simp_all; subst h; decide)
  · exact order_row_fields_iff_status "tok" "100000000" "0.01"
      (.ok ⟨false, none, none⟩) (fun _ => .ok sampleRoute)
      (fun _ => .ok "tx123")
      (fun e h => by simp at h) (fun pc e h => by simp at h)
      (fun r e h => by simp at h) (fun r t h => by simp_all; subst h; decide)

/-- Claim C4 amended: within a single run of the worker, the sequence of
persisted statuses is monotone along the lifecycle graph, the only jump
being to failed from a non-terminal status. (Across a retried run the
sequence restarts from pending, so the cross-run claim fails — see the
counterexample.) -/
theorem worker_statuses_monotone (tok : String)
    (poolCheck : Except String PoolSearchResult)
    (route : PoolSearchResult → Except String Route)
    (execTx : Route → Except String String) :
    chainAllowed (((worker tok poolCheck route execTx).ups).map Prod.fst) = true := by
  rcases poolCheck with e | pc
  · rfl
  · cases hf : pc.found with
    | false =>
      simp only [worker, hf, reduceIte]
      rfl
    | true =>
      rcases hr : route pc with e | r
      · simp only [worker, hf, hr, reduceIte]
        rfl
      · rcases hx : execTx r with e | tx
        · simp only [worker, hf, hr, hx, reduceIte]
          rfl
        · simp only [worker, hf, hr, hx, reduceIte]
          rfl

/-- Counterexample to claim C4: a failing run followed by its retried run
persists the status sequence pending, monitoring, failed, pending, …,
confirmed; the failed → pending transition at the retry boundary moves the
status backwards, so monotonicity over the whole persisted sequence
(including retried runs) does not hold. -/
theorem worker_retry_statuses_not_monotone_counterexample :
    ((worker "tok" (.ok ⟨false, none, none⟩) (fun _ => .ok sampleRoute)
        (fun _ => .ok "tx123")).ups ++
     (worker "tok" (.ok ⟨true, some "rp", some "mp"⟩) (fun _ => .ok sampleRoute)
        (fun _ => .ok "tx123")).ups).map Prod.fst =
      [Status.pending, Status.monitoring, Status.failed,
       Status.pending, Status.monitoring, Status.triggered, Status.routing,
       Status.building, Status.submitted, Status.confirmed] ∧
    chainAllowed
      (((worker "tok" (.ok ⟨false, none, none⟩) (fun _ => .ok sampleRoute)
          (fun _ => .ok "tx123")).ups ++
        (worker "tok" (.ok ⟨true, some "rp", some "mp"⟩) (fun _ => .ok sampleRoute)
          (fun _ => .ok "tx123")).ups).map Prod.fst) = false := by
  constructor
  · rfl
  · rfl

/-- Claim C5: whenever a run of the worker ends in an error, the error was
caught exactly once at the job boundary: the run's persisted updates contain
exactly one failed update — the last one, carrying the error message — its
broadcasts contain exactly one failed event — the last one, carrying the
same message — and the job outcome re-raises exactly the error some step
raised (the pool-check error, the pool-not-found error, the routing error,
or the execution error), unchanged. -/
theorem worker_catches_error_once_at_boundary (tok : String)
    (poolCheck : Except String PoolSearchResult)
    (route : PoolSearchResult → Except String Route)
    (execTx : Route → Except String String) (e : String)
    (h : (worker tok poolCheck route execTx).outcome = .error e) :
    (worker tok poolCheck route execTx).ups.filter
        (fun u => u.1 == Status.failed) = [(Status.failed, errData e)] ∧
    (worker tok poolCheck route execTx).ups.getLast? =
      some (Status.failed, errData e) ∧
    (worker tok poolCheck route execTx).evs.filter
        (fun v => v.1 == Status.failed) = [(Status.failed, e)] ∧
    (worker tok poolCheck route execTx).evs.getLast? = some (Status.failed, e) ∧
    (poolCheck = .error e ∨
     (∃ pc, poolCheck = .ok pc ∧ pc.found = false ∧
        e = "Pool not found on any DEX") ∨
     (∃ pc, poolCheck = .ok pc ∧ pc.found = true ∧ route pc = .error e) ∨
     (∃ pc r, poolCheck = .ok pc ∧ pc.found = true ∧ route pc = .ok r ∧
        execTx r = .error e)) := by
  rcases hpc : poolCheck with e0 | pc
  · rw [hpc] at h
    simp only [worker] at h
    injection h with h
    subst h
    refine ⟨?_, ?_, ?_, ?_, Or.inl rfl⟩ <;> rfl
  · rw [hpc] at h
    simp only [worker] at h
    cases hf : pc.found with
    | false =>
      rw [hf] at h
      rw [if_pos rfl] at h
      injection h with h
      subst h
      refine ⟨?_, ?_, ?_, ?_, Or.inr (Or.inl ⟨pc, rfl, hf, rfl⟩)⟩ <;>
        simp only [worker, hf, reduceIte] <;> rfl
    | true =>
      rw [hf, if_neg (by simp)] at h
      rcases hr : route pc with e1 | r
      · rw [hr] at h
        injection h with h
        subst h
        refine ⟨?_, ?_, ?_, ?_, Or.inr (Or.inr (Or.inl ⟨pc, rfl, hf, hr⟩))⟩ <;>
          simp only [worker, hf, hr, reduceIte] <;> rfl
      · rw [hr] at h
        rcases hx : execTx r with e1 | tx
        · simp only [hx] at h
          injection h with h
          subst h
          refine ⟨?_, ?_, ?_, ?_,
            Or.inr (Or.inr (Or.inr ⟨pc, r, rfl, hf, hr, hx⟩))⟩ <;>
            simp only [worker, hf, hr, hx, reduceIte] <;> rfl
        · simp only [hx] at h
          simp at h

/-- Witness for C5: a run whose routing step raises an error persists one
failed update carrying the message, broadcasts one failed event carrying it,
and re-raises that same error. -/
theorem worker_catches_error_once_at_boundary_witness :
    (worker "tok" (.ok ⟨true, some "rp", some "mp"⟩)
        (fun _ => .error "No quotes available from any DEX")
        (fun _ => .ok "tx123")).ups.filter
        (fun u => u.1 == Status.failed) =
      [(Status.failed, errData "No quotes available from any DEX")] ∧
    (worker "tok" (.ok ⟨true, some "rp", some "mp"⟩)
        (fun _ => .error "No quotes available from any DEX")
        (fun _ => .ok "tx123")).evs.getLast? =
      some (Status.failed, "No quotes available from any DEX") := by
  have h := worker_catches_error_once_at_boundary "tok"
    (.ok ⟨true, some "rp", some "mp"⟩)
    (fun _ => .error "No quotes available from any DEX")
    (fun _ => .ok "tx123") "No quotes available from any DEX" rfl
  exact ⟨h.1, h.2.2.2.1⟩

theorem mapGet_eq_none_of_not_mem (m : WsMap) (oid : String)
    (h : oid ∉ m.map Prod.fst) : mapGet m oid = none := by
  induction m with
  | nil => rfl
  | cons kv rest ih =>
    obtain ⟨k, v⟩ := kv
    simp only [List.map_cons, List.mem_cons] at h
    push_neg at h
    obtain ⟨h1, h2⟩ := h
    simp only [mapGet]
    rw [if_neg (by simp only [beq_iff_eq]; exact fun hh => h1 hh.symm)]
    exact ih h2

theorem mapGet_mapDelete_self (m : WsMap) (oid : String)
    (hnodup : (m.map Prod.fst).Nodup) :
    mapGet (mapDelete m oid) oid = none := by
  induction m with
  | nil => rfl
  | cons kv rest ih =>
    obtain ⟨k, v⟩ := kv
    simp only [List.map_cons, List.nodup_cons] at hnodup
    obtain ⟨hknot, hrest⟩ := hnodup
    by_cases hk : k = oid
    · subst hk
      simp only [mapDelete, beq_self_eq_true, if_true]
      exact mapGet_eq_none_of_not_mem rest k hknot
    · simp only [mapDelete]
      rw [if_neg (by simp only [beq_iff_eq]; exact hk)]
      simp only [mapGet]
      rw [if_neg (by simp only [beq_iff_eq]; exact hk)]
      exact ih hrest

/-- Claim C7: a publish sends exactly one serialization of the event — every
send carries the same string, `stringify message` — and a pair (c, s) is
sent iff s is that string and some currently-open channel of the order's
observer set has id c (so every closed channel is skipped); publishing for
an order id with no mapping entry is a no-op; and, for a map with unique
keys, closing the last observer of an order removes the order's mapping
entry entirely. -/
theorem broadcastToOrder_sends_open_only {α : Type} (stringify : α → String)
    (m : WsMap) (orderId : String) (message : α) (sock : Chan) :
    (∀ c s, (c, s) ∈ broadcastToOrder stringify m orderId message ↔
      (s = stringify message ∧ ∃ ws ∈ (mapGet m orderId).getD [],
        ws.readyState = 1 ∧ ws.cid = c)) ∧
    (mapGet m orderId = none → broadcastToOrder stringify m orderId message = []) ∧
    ((m.map Prod.fst).Nodup → mapGet m orderId = some [sock] →
      mapGet (socketClose m (some orderId) sock) orderId = none) := by
  refine ⟨?_, ?_, ?_⟩
  · intro c s
    cases hm : mapGet m orderId with
    | none => simp [broadcastToOrder, hm]
    | some conns =>
      simp only [broadcastToOrder, hm, Option.getD_some, List.mem_map,
        List.mem_filter]
      constructor
      · rintro ⟨ws, ⟨hws, hopen⟩, heq⟩
        injection heq with h1 h2
        exact ⟨h2.symm, ws, hws, by simpa using hopen, h1⟩
      · rintro ⟨rfl, ws, hws, hopen, rfl⟩
        exact ⟨ws, ⟨hws, by simpa using hopen⟩, rfl⟩
  · intro hm
    simp [broadcastToOrder, hm]
  · intro hnodup hm
    have hfilter : (([sock] : List Chan).filter (fun ws => !(ws == sock))) = [] := by
      simp
    simp only [socketClose, hm, hfilter, List.length_nil]
    have h00 : ((0 : Nat) == 0) = true := rfl
    rw [if_pos h00]
    exact mapGet_mapDelete_self m orderId hnodup

/-- Witness for C7: a concrete map with one open and one closed observer of
order "o1": the open channel receives the serialized event, the closed one
does not, publishing for an unknown order sends nothing, and closing the
sole observer of order "o2" deletes its entry. -/
theorem broadcastToOrder_sends_open_only_witness :
    ((1, "ev") ∈ broadcastToOrder (fun s => s)
      [("o1", [⟨1, 1⟩, ⟨2, 3⟩]), ("o2", [⟨7, 1⟩])] "o1" "ev" ∧
     ¬ (2, "ev") ∈ broadcastToOrder (fun s => s)
      [("o1", [⟨1, 1⟩, ⟨2, 3⟩]), ("o2", [⟨7, 1⟩])] "o1" "ev") ∧
    broadcastToOrder (fun s => s)
      [("o1", [⟨1, 1⟩, ⟨2, 3⟩]), ("o2", [⟨7, 1⟩])] "nope" "ev" = [] ∧
    mapGet (socketClose [("o1", [⟨1, 1⟩, ⟨2, 3⟩]), ("o2", [⟨7, 1⟩])]
      (some "o2") ⟨7, 1⟩) "o2" = none := by
  have h := broadcastToOrder_sends_open_only (fun s => s)
    [("o1", [⟨1, 1⟩, ⟨2, 3⟩]), ("o2", [⟨7, 1⟩])] "o1" "ev" ⟨7, 1⟩
  have h2 := broadcastToOrder_sends_open_only (fun s => s)
    [("o1", [⟨1, 1⟩, ⟨2, 3⟩]), ("o2", [⟨7, 1⟩])] "nope" "ev" ⟨7, 1⟩
  have h3 := broadcastToOrder_sends_open_only (fun s => s)
    [("o1", [⟨1, 1⟩, ⟨2, 3⟩]), ("o2", [⟨7, 1⟩])] "o2" "ev" ⟨7, 1⟩
  have hconns : (mapGet [("o1", [⟨1, 1⟩, ⟨2, 3⟩]), ("o2", [⟨7, 1⟩])] "o1").getD [] =
      [(⟨1, 1⟩ : Chan), ⟨2, 3⟩] := rfl
  refine ⟨⟨?_, ?_⟩, ?_, ?_⟩
  · refine (h.1 1 "ev").mpr ⟨rfl, ⟨1, 1⟩, ?_, rfl, rfl⟩
    rw [hconns]
    exact List.mem_cons_self _ _
  · intro hmem
    obtain ⟨-, ws, hws, hopen, hcid⟩ := (h.1 2 "ev").mp hmem
    rw [hconns] at hws
    simp only [List.mem_cons, List.not_mem_nil, or_false] at hws
    rcases hws with rfl | rfl <;> simp_all
  · exact h2.2.1 rfl
  · exact h3.2.2 (by simp) rfl

theorem onMessage_processed (st : ConnState) (fid : String) (msg : WsMessage) :
    (onMessage st fid msg).1.orderProcessed = true := by
  by_cases h : st.orderProcessed
  · simp [onMessage, h]
  · simp only [onMessage, h]
    rw [if_neg (by simp [h])]
    cases msg with
    | badJson err => rfl
    | json o =>
      cases o with
      | none => rfl
      | some order =>
        dsimp only
        split <;> rfl

theorem runConn_processed_noop (st : ConnState) (h : st.orderProcessed = true)
    (msgs : List (String × WsMessage)) : runConn st msgs = (st, []) := by
  induction msgs with
  | nil => rfl
  | cons fm rest ih =>
    obtain ⟨fid, msg⟩ := fm
    have hout : onMessage st fid msg = (st, []) := by
      simp [onMessage, h]
    simp [runConn, hout, ih]

/-- Claim C10: a connection creates at most one order — all effects of the
whole connection come from the first received message (later messages are
silently ignored, as `orderProcessed` is set before parsing), and across the
connection at most one order row is created and at most one job enqueued. -/
theorem connection_processes_first_message_only (fid : String) (msg : WsMessage)
    (rest : List (String × WsMessage)) :
    (runConn ⟨none, false⟩ ((fid, msg) :: rest)).2 =
      (onMessage ⟨none, false⟩ fid msg).2 ∧
    (runConn ⟨none, false⟩ ((fid, msg) :: rest)).2.countP
      (fun e => isCreateOrderRow e) ≤ 1 ∧
    (runConn ⟨none, false⟩ ((fid, msg) :: rest)).2.countP
      (fun e => isEnqueueJob e) ≤ 1 := by
  have hrest := runConn_processed_noop (onMessage ⟨none, false⟩ fid msg).1
    (onMessage_processed ⟨none, false⟩ fid msg) rest
  have heq : (runConn ⟨none, false⟩ ((fid, msg) :: rest)).2 =
      (onMessage ⟨none, false⟩ fid msg).2 := by
    simp [runConn, hrest]
  refine ⟨heq, ?_, ?_⟩ <;> rw [heq] <;>
    · cases msg with
      | badJson err => simp [onMessage, isCreateOrderRow, isEnqueueJob]
      | json o =>
        cases o with
        | none => simp [onMessage, isCreateOrderRow, isEnqueueJob]
        | some order =>
          simp only [onMessage]
          rw [if_neg (by simp)]
          split <;> simp [isCreateOrderRow, isEnqueueJob, List.countP_cons]

/-- Claim C8 (code bug): jobs are enqueued with the configured retry budget
(default 3 attempts) and failed jobs are retained — removeOnFail and
removeOnComplete are both false — and the worker registers a backoffStrategy
of 2^attempt seconds; but the enqueue passes no backoff option, so BullMQ
resolves every retry delay to zero and never invokes that strategy: the
retry after attempt 1 runs after 0 ms, not the 2000 ms the registered
strategy would give under backoff type custom. -/
theorem retry_backoff_unwired (env : Option Nat) (n : Nat) :
    (orderJobOptions none).attempts = 3 ∧
    (orderJobOptions env).removeOnComplete = false ∧
    (orderJobOptions env).removeOnFail = false ∧
    (orderJobOptions env).backoff = BackoffOpt.noBackoff ∧
    backoffStrategy n = 2 ^ n * 1000 ∧
    retryDelay (orderJobOptions env).backoff backoffStrategy 1 = 0 ∧
    retryDelay BackoffOpt.custom backoffStrategy 1 = 2 * 1000 :=
  ⟨rfl, rfl, rfl, rfl, rfl, rfl, rfl⟩

/-- Claim C1: with both venue quotes successfully obtained and both integer
output amounts within the 53 bits that `BN.toNumber()` can convert (beyond
which the source throws instead of comparing), `getBestRoute` selects the
venue whose output amount (smallest-unit precision, same input) is strictly
larger, and the returned reason records the numeric comparison, citing both
output figures. -/
theorem getBestRoute_selects_strictly_larger_output
    (rpid mpid : String) (getRay getMet : String → Except String Quote)
    (rq mq : Quote)
    (hr : getRay rpid = .ok rq) (hm : getMet mpid = .ok mq)
    (h53r : rq.outputAmount < 2 ^ 53) (h53m : mq.outputAmount < 2 ^ 53)
    (_hne : rq.outputAmount ≠ mq.outputAmount) :
    ∃ route, getBestRoute (some rpid) (some mpid) getRay getMet = .ok route ∧
      (rq.outputAmount > mq.outputAmount →
        route.dex = "raydium" ∧
        route.reason = "Better output: " ++ toLocaleString rq.outputAmount ++
          " vs " ++ toLocaleString mq.outputAmount) ∧
      (mq.outputAmount > rq.outputAmount →
        route.dex = "meteora" ∧
        route.reason = "Better output: " ++ toLocaleString mq.outputAmount ++
          " vs " ++ toLocaleString rq.outputAmount) := by
  have hray : venueQuote (some rpid) getRay = some rq := by
    simp [venueQuote, hr, Except.toOption]
  have hmet : venueQuote (some mpid) getMet = some mq := by
    simp [venueQuote, hm, Except.toOption]
  have hnr : toNumber rq.outputAmount = .ok rq.outputAmount := by
    simp only [toNumber]
    rw [if_pos h53r]
  have hnm : toNumber mq.outputAmount = .ok mq.outputAmount := by
    simp only [toNumber]
    rw [if_pos h53m]
  by_cases h : rq.outputAmount > mq.outputAmount
  · exact ⟨⟨"raydium", rpid, some rq, some mq, some rq,
      "Better output: " ++ toLocaleString rq.outputAmount ++ " vs " ++
        toLocaleString mq.outputAmount⟩,
      by simp only [getBestRoute, hray, hmet, hnr, hnm, if_pos h,
        Option.getD_some],
      fun _ => ⟨rfl, rfl⟩, fun h2 => absurd h2 (by omega)⟩
  · exact ⟨⟨"meteora", mpid, some rq, some mq, some mq,
      "Better output: " ++ toLocaleString mq.outputAmount ++ " vs " ++
        toLocaleString rq.outputAmount⟩,
      by simp only [getBestRoute, hray, hmet, hnr, hnm, if_neg h,
        Option.getD_some],
      fun h1 => absurd h1 h, fun _ => ⟨rfl, rfl⟩⟩

/-- Witness for C1: quotes 10,000,000 (Raydium) vs 9,000,000 (Meteora) make
the router pick Raydium with a reason citing both figures. -/
theorem getBestRoute_selects_strictly_larger_output_witness :
    ∃ route, getBestRoute (some "rpool") (some "mpool")
        (fun _ => .ok ⟨10000000, 250000, 500⟩)
        (fun _ => .ok ⟨9000000, 200000, 450⟩) = .ok route ∧
      route.dex = "raydium" ∧
      route.reason = "Better output: 10,000,000 vs 9,000,000" := by
  obtain ⟨route, h1, h2, _⟩ :=
    getBestRoute_selects_strictly_larger_output "rpool" "mpool"
      (fun _ => .ok ⟨10000000, 250000, 500⟩) (fun _ => .ok ⟨9000000, 200000, 450⟩)
      ⟨10000000, 250000, 500⟩ ⟨9000000, 200000, 450⟩ rfl rfl (by norm_num)
      (by norm_num) (by decide)
  refine ⟨route, h1, (h2 (by decide)).1, ?_⟩
  rw [(h2 (by decide)).2]
  rfl

/-- Claim C6: the router errors with the no-quote message exactly when no
venue contributes a quote (its pool is missing or its quote request failed);
a single surviving venue is selected with reason naming it as only venue,
so one venue's quote failure is excluded rather than propagated. -/
theorem getBestRoute_noQuote_iff_none_and_single_survivor
    (rpid mpid : Option String) (getRay getMet : String → Except String Quote) :
    (getBestRoute rpid mpid getRay getMet =
        .error "No quotes available from any DEX" ↔
      venueQuote rpid getRay = none ∧ venueQuote mpid getMet = none) ∧
    (∀ rq, venueQuote rpid getRay = some rq → venueQuote mpid getMet = none →
      ∃ route, getBestRoute rpid mpid getRay getMet = .ok route ∧
        route.dex = "raydium" ∧ route.reason = "Only Raydium available" ∧
        route.selectedQuote = some rq) ∧
    (∀ mq, venueQuote rpid getRay = none → venueQuote mpid getMet = some mq →
      ∃ route, getBestRoute rpid mpid getRay getMet = .ok route ∧
        route.dex = "meteora" ∧ route.reason = "Only Meteora available" ∧
        route.selectedQuote = some mq) := by
  refine ⟨⟨?_, ?_⟩, ?_, ?_⟩
  · intro h
    cases hr : venueQuote rpid getRay with
    | none =>
      cases hm : venueQuote mpid getMet with
      | none => exact ⟨rfl, rfl⟩
      | some mq => simp [getBestRoute, hr, hm] at h
    | some rq =>
      cases hm : venueQuote mpid getMet with
      | none => simp [getBestRoute, hr, hm] at h
      | some mq =>
        simp only [getBestRoute, hr, hm] at h
        by_cases h53r : rq.outputAmount < 2 ^ 53
        · have hnr : toNumber rq.outputAmount = .ok rq.outputAmount := by
            simp only [toNumber]
            rw [if_pos h53r]
          simp only [hnr] at h
          by_cases h53m : mq.outputAmount < 2 ^ 53
          · have hnm : toNumber mq.outputAmount = .ok mq.outputAmount := by
              simp only [toNumber]
              rw [if_pos h53m]
            simp only [hnm] at h
            split at h <;> simp at h
          · have hnm : toNumber mq.outputAmount =
                .error "Number can only safely store up to 53 bits" := by
              simp only [toNumber]
              rw [if_neg h53m]
            simp only [hnm] at h
            simp at h
        · have hnr : toNumber rq.outputAmount =
              .error "Number can only safely store up to 53 bits" := by
            simp only [toNumber]
            rw [if_neg h53r]
          simp only [hnr] at h
          simp at h
  · rintro ⟨hr, hm⟩
    simp [getBestRoute, hr, hm]
  · intro rq hr hm
    simp only [getBestRoute, hr, hm]
    exact ⟨_, rfl, rfl, rfl, rfl⟩
  · intro mq hr hm
    simp only [getBestRoute, hr, hm]
    exact ⟨_, rfl, rfl, rfl, rfl⟩

/-- Witness for C6: with both venue quote requests failing the router raises
the no-quote error; with only Raydium succeeding it selects Raydium with the
only-venue reason even though Meteora's quote request failed. -/
theorem getBestRoute_noQuote_iff_none_and_single_survivor_witness :
    getBestRoute (some "rp") (some "mp")
        (fun _ => .error "no liquidity") (fun _ => .error "no liquidity") =
      .error "No quotes available from any DEX" ∧
    ∃ route, getBestRoute (some "rp") (some "mp")
        (fun _ => .ok ⟨10000000, 250000, 500⟩) (fun _ => .error "no liquidity") =
      .ok route ∧ route.dex = "raydium" ∧ route.reason = "Only Raydium available" := by
  constructor
  · exact ((getBestRoute_noQuote_iff_none_and_single_survivor (some "rp") (some "mp")
      (fun _ => .error "no liquidity") (fun _ => .error "no liquidity")).1).mpr ⟨rfl, rfl⟩
  · obtain ⟨route, h1, h2, h3, _⟩ :=
      (getBestRoute_noQuote_iff_none_and_single_survivor (some "rp") (some "mp")
        (fun _ => .ok ⟨10000000, 250000, 500⟩) (fun _ => .error "no liquidity")).2.1
        ⟨10000000, 250000, 500⟩ rfl rfl
    exact ⟨route, h1, h2, h3⟩

/-- Claim C9: with both venue quotes obtained, exactly equal integer output
amounts, and the outputs within the 53 bits `BN.toNumber()` can convert
(beyond which the source throws before comparing), the strict greater-than
comparison fails and the else branch deterministically selects Meteora. -/
theorem getBestRoute_tie_selects_meteora
    (rpid mpid : String) (getRay getMet : String → Except String Quote)
    (rq mq : Quote)
    (hr : getRay rpid = .ok rq) (hm : getMet mpid = .ok mq)
    (h53r : rq.outputAmount < 2 ^ 53) (h53m : mq.outputAmount < 2 ^ 53)
    (heq : rq.outputAmount = mq.outputAmount) :
    ∃ route, getBestRoute (some rpid) (some mpid) getRay getMet = .ok route ∧
      route.dex = "meteora" := by
  have hray : venueQuote (some rpid) getRay = some rq := by
    simp [venueQuote, hr, Except.toOption]
  have hmet : venueQuote (some mpid) getMet = some mq := by
    simp [venueQuote, hm, Except.toOption]
  have hnr : toNumber rq.outputAmount = .ok rq.outputAmount := by
    simp only [toNumber]
    rw [if_pos h53r]
  have hnm : toNumber mq.outputAmount = .ok mq.outputAmount := by
    simp only [toNumber]
    rw [if_pos h53m]
  have h : ¬ rq.outputAmount > mq.outputAmount := by omega
  exact ⟨⟨"meteora", mpid, some rq, some mq, some mq,
    "Better output: " ++ toLocaleString mq.outputAmount ++ " vs " ++
      toLocaleString rq.outputAmount⟩,
    by simp only [getBestRoute, hray, hmet, hnr, hnm, if_neg h,
      Option.getD_some], rfl⟩

/-- Witness for C9: two quotes with identical outputs 5,000,000 make the
router pick Meteora. -/
theorem getBestRoute_tie_selects_meteora_witness :
    ∃ route, getBestRoute (some "rpool") (some "mpool")
        (fun _ => .ok ⟨5000000, 250000, 500⟩)
        (fun _ => .ok ⟨5000000, 200000, 450⟩) = .ok route ∧
      route.dex = "meteora" :=
  getBestRoute_tie_selects_meteora "rpool" "mpool"
    (fun _ => .ok ⟨5000000, 250000, 500⟩) (fun _ => .ok ⟨5000000, 200000, 450⟩)
    ⟨5000000, 250000, 500⟩ ⟨5000000, 200000, 450⟩ rfl rfl (by norm_num)
    (by norm_num) rfl

end Sniper
